import Mathlib

/-!
Shallow embedding of the toolpath-generation engine of the drill-press app
(the `DrillToolpath` class of the drill-press toolpath module, together with
the OpenSBP helpers of `CobotCore` in shared/js/cobot-core.js), and theorems
checking the natural-language specification against it.

Modelling conventions:

* JS numbers are modelled as exact rationals.  The source compares
  `Math.sqrt` of nonnegative quantities only with the strict order; square
  root is strictly monotone on nonnegatives, so every such comparison is
  performed here directly on the squared distances.  This is exact and keeps
  all definitions computable.
* A JS object field that may be `undefined` is an `Option ℚ`.  JS
  truthiness of a number (`undefined` and `0` are falsy) is the `truthy`
  predicate, and the JS idiom `a || b` on numbers is `jsOr`.  A JS
  comparison whose operand may be `undefined` evaluates to `false`
  (NaN comparison); that is `jsLe`.
* Output program text is modelled line by line with the inductive
  `SBPLine`; each `lines.push(...)` of the source contributes one list
  element, and the `join` of sections with a newline corresponds to list
  concatenation.  Numeric payloads carry the exact value the source would
  render with `toFixed(3)`; the decimal rendering itself, and comment text
  surrounding numbers, are abstracted into the constructors.  Comment
  payload strings omit the leading OpenSBP comment mark (apostrophe-space).
-/

/-- A hole record as handed to the engine: work coordinates plus the
display-only fields the UI attaches (`diameter`, `depth`, `number`).  The
engine reads only `x` and `y` of a hole. -/
structure Hole where
  x : ℚ
  y : ℚ
  diameter : ℚ
  depth : ℚ
  number : ℕ
deriving DecidableEq, Repr

/-- The process-wide defaults returned by `CobotCore.getGlobalSettings`
(external browser storage, read-only to the engine, passed in here as an
explicit value). -/
structure Settings where
  safeZ : ℚ
  feedRate : ℚ
  plungeRate : ℚ
  spindleStartupTime : ℚ
deriving DecidableEq, Repr

/-- The drilling configuration object.  Fields a caller may omit are
`Option ℚ` (`none` models the JS `undefined`). -/
structure DrillConfig where
  type : String
  diameter : Option ℚ
  depth : Option ℚ
  cbDiameter : Option ℚ
  cbDepth : Option ℚ
  safeZ : Option ℚ
  feedRate : Option ℚ
  plungeRate : Option ℚ
  materialThickness : Option ℚ
deriving DecidableEq, Repr

/-- JS truthiness of a numeric field: `undefined` and `0` are falsy. -/
def truthy : Option ℚ → Bool
  | none => false
  | some q => decide (q ≠ 0)

/-- The JS idiom `a || b` for a possibly-absent number `a` with default `b`. -/
def jsOr : Option ℚ → ℚ → ℚ
  | none, d => d
  | some q, d => if q ≠ 0 then q else d

/-- A JS `<=` whose operands may be `undefined`: any comparison involving
`undefined` evaluates to `false`. -/
def jsLe : Option ℚ → Option ℚ → Bool
  | some a, some b => decide (a ≤ b)
  | some _, none => false
  | none, _ => false

/-- Exact-rational model of `parseFloat(value.toFixed(3))`: round to the
nearest multiple of 1/1000, with the tie resolved upward as the JS
`toFixed` specification prescribes. -/
def toFixed3 (q : ℚ) : ℚ := ((round (q * 1000) : ℤ) : ℚ) / 1000

/-- One line of the generated OpenSBP program.  Executable lines carry
their exact numeric payloads (the values the source would print via
`toFixed(3)`); comment lines carry their fixed text, or the data that the
source interpolates into them. -/
inductive SBPLine where
  | comment (text : String)
  | commentGenerated
  | commentMaterial (v : ℚ)
  | commentBit (v : ℚ)
  | commentNotes (holeType : String) (d : Option ℚ)
  | commentHole (n : ℕ) (x y : ℚ)
  | commentPocket (numPasses : ℕ)
  | commentPass (k : ℕ) (z : ℚ)
  | blank
  | varDecl (name : String) (v : ℚ)
  | ms (a b : ℚ)
  | vs (p : ℚ)
  | c6
  | c7
  | c9
  | pauseCmd (t : ℚ)
  | jzVar
  | jz (z : ℚ)
  | j2 (x y : ℚ)
  | mz (z : ℚ)
  | m2 (x y z : ℚ)
  | m2xy (x y : ℚ)
  | cg (x y z : ℚ)
  | endMark
deriving DecidableEq, Repr

namespace CobotCore

/-- `generateSBPHeader(description, options)` (cobot-core.js lines
274–295): comment lines only.  The generation timestamp is external input
and is abstracted to `commentGenerated`; the `options.notes` string built
by the caller is always nonempty, hence always pushed. -/
def separatorLine : String := String.mk (List.replicate 68 ('=' : Char))

def generateSBPHeader (description : String) (materialThickness bitDiameter : Option ℚ)
    (notesType : String) (notesDepth : Option ℚ) : List SBPLine :=
  [SBPLine.comment separatorLine,
   SBPLine.comment (r"CNC Cobot Workshop: Drill Press"),
   SBPLine.comment description,
   SBPLine.comment separatorLine,
   SBPLine.commentGenerated,
   SBPLine.comment (r"App Version: 0.1.0")] ++
  (if truthy materialThickness then [SBPLine.commentMaterial (materialThickness.getD 0)]
   else []) ++
  (if truthy bitDiameter then [SBPLine.commentBit (bitDiameter.getD 0)] else []) ++
  [SBPLine.commentNotes notesType notesDepth] ++
  [SBPLine.comment (r"")]

/-- The options record passed to `generateSBPFooter`. -/
structure FooterOptions where
  safeZ : Option ℚ
  returnHome : Option Bool
deriving DecidableEq, Repr

/-- `generateSBPFooter(options)` (cobot-core.js lines 335–352): blank line,
cleanup comment, retract to safe Z written as a numeric literal
(`JZ,${safeZ.toFixed(3)}`, not the symbolic reference), spindle off,
return to home unless `options.returnHome === false`, and the END marker. -/
def generateSBPFooter (options : FooterOptions) (settings : Settings) : List SBPLine :=
  let safeZ := jsOr options.safeZ settings.safeZ
  let returnHome := options.returnHome ≠ some false
  [SBPLine.blank,
   SBPLine.comment (r"Cleanup"),
   SBPLine.jz safeZ,
   SBPLine.c7] ++
  (if returnHome then [SBPLine.j2 0 0] else []) ++
  [SBPLine.endMark]

end CobotCore

namespace DrillToolpath

/-- Squared 2D Euclidean distance between two holes.  The source's
`_distance` computes `Math.sqrt(dx*dx + dy*dy)` and only ever compares the
results with the strict order, which coincides with comparing the squares. -/
def distSq (p1 p2 : Hole) : ℚ :=
  (p2.x - p1.x) * (p2.x - p1.x) + (p2.y - p1.y) * (p2.y - p1.y)

/-- Squared distance from the origin (`Math.sqrt(h.x*h.x + h.y*h.y)` before
the square root), used by the seed selection of `_optimizeHoleOrder`. -/
def origDistSq (h : Hole) : ℚ := h.x * h.x + h.y * h.y

/-- The selection pattern shared by the seed `reduce` of
`_optimizeHoleOrder` and the inner `for` loop of its nearest-neighbor
search: starting from a first candidate, replace the candidate exactly when
a strictly smaller key is seen.  The earliest element attaining the minimal
key therefore wins. -/
def selectBy (f : Hole → ℚ) (h : Hole) (t : List Hole) : Hole :=
  t.foldl (fun best x => if f x < f best then x else best) h

/-- The `while (remaining.length > 0)` loop of `_optimizeHoleOrder`.  Each
iteration appends the nearest remaining hole and removes it from
`remaining` (`splice` at `indexOf`), so the loop runs exactly
`remaining.length` times; the first argument is that iteration count.
JS `indexOf` uses reference equality and removes the picked object; at the
level of hole values, removing the first value-equal occurrence instead
(`List.erase`) produces the same list of values, which is all that later
iterations can observe. -/
def nnLoop : ℕ → Hole → List Hole → List Hole
  | 0, _, _ => []
  | _ + 1, _, [] => []
  | n + 1, cur, h :: t =>
    let nearest := selectBy (distSq cur) h t
    nearest :: nnLoop n nearest ((h :: t).erase nearest)

/-- `_optimizeHoleOrder` (hole-value level): return inputs of at most one
hole unchanged; otherwise seed with the hole closest to the origin (the
`reduce` over the copied `remaining`), remove it, and run the
nearest-neighbor loop. -/
def _optimizeHoleOrder (holes : List Hole) : List Hole :=
  if holes.length ≤ 1 then holes
  else
    match holes with
    | [] => []
    | h :: t =>
      let current := selectBy origDistSq h t
      let remaining := (h :: t).erase current
      current :: nnLoop remaining.length current remaining

/-- Minimum of `f` over the nonempty list `h :: t`. -/
def minValOf (f : Hole → ℚ) (h : Hole) (t : List Hole) : ℚ :=
  (t.map f).foldl min (f h)

/-- Spec-side selection, following the specification words: the earliest
element of `h :: t` attaining the minimum of `f` ("ties broken by input
order, first occurrence wins"). -/
def earliestMin (f : Hole → ℚ) (h : Hole) (t : List Hole) : Option Hole :=
  (h :: t).find? (fun x => decide (f x = minValOf f h t))

/-- Spec-side greedy loop, following the specification text of section 4.2:
repeatedly select, among the not-yet-visited holes, the earliest one at
minimum distance to the current point; append it and make it current. -/
def specLoop : ℕ → Hole → List Hole → List Hole
  | 0, _, _ => []
  | _ + 1, _, [] => []
  | n + 1, cur, h :: t =>
    match earliestMin (distSq cur) h t with
    | none => []
    | some m => m :: specLoop n m ((h :: t).erase m)

/-- Spec-side optimizer, written from the specification's words (section
4.2) for comparison against the source embedding `_optimizeHoleOrder`:
inputs of 0 or 1 holes are returned unchanged; the seed is the earliest
hole of minimal Euclidean distance from the origin; afterwards greedy
nearest-neighbor selection with earliest-first tie-break until all holes
are visited. -/
def specOptimizeOrder (H : List Hole) : List Hole :=
  if H.length ≤ 1 then H
  else
    match H with
    | [] => []
    | h :: t =>
      match earliestMin origDistSq h t with
      | none => []
      | some s => s :: specLoop ((h :: t).erase s).length s ((h :: t).erase s)

/-- `_generateHeader`: description plus material/bit/notes annotations,
delegated to `CobotCore.generateSBPHeader`.  `options.bitDiameter` is
`config.diameter` and the notes string interpolates `config.type` and
`config.depth`. -/
def _generateHeader (holes : List Hole) (config : DrillConfig) : List SBPLine :=
  CobotCore.generateSBPHeader
    ((r"Drilling ") ++ toString holes.length ++ (r" hole(s)"))
    config.materialThickness config.diameter config.type config.depth

/-- `_generateInit`: named-value declarations (safeZ, plungeRate, feedRate,
depth), speed setup, spindle start with startup pause, and the move to the
symbolic safe Z.  The `&depth` declaration formats `config.depth` with
`toFixed(3)`; when the field is `undefined` the JS call throws a
`TypeError`, which `generate` models explicitly, so the `getD 0` default
below is never reached from `generate` with an absent depth. -/
def _generateInit (config : DrillConfig) (settings : Settings) : List SBPLine :=
  let safeZ := jsOr config.safeZ settings.safeZ
  let feedRate := jsOr config.feedRate settings.feedRate
  let plungeRate := jsOr config.plungeRate settings.plungeRate
  [SBPLine.comment (r"=== Initialization ==="),
   SBPLine.varDecl (r"safeZ") safeZ,
   SBPLine.varDecl (r"plungeRate") plungeRate,
   SBPLine.varDecl (r"feedRate") feedRate,
   SBPLine.varDecl (r"depth") (config.depth.getD 0),
   SBPLine.blank,
   SBPLine.ms feedRate feedRate,
   SBPLine.vs plungeRate,
   SBPLine.blank,
   SBPLine.c9,
   SBPLine.c6,
   SBPLine.pauseCmd settings.spindleStartupTime,
   SBPLine.blank,
   SBPLine.jzVar,
   SBPLine.blank]

/-- `_generatePlungeHole`: rapid over the hole, plunge to
`-Math.abs(config.depth)`, retract to the symbolic safe Z.  Exactly three
instructions. -/
def _generatePlungeHole (hole : Hole) (config : DrillConfig) : List SBPLine :=
  [SBPLine.j2 hole.x hole.y,
   SBPLine.mz (-(abs (config.depth.getD 0))),
   SBPLine.jzVar]

/-- `_generatePocketHole`: helical pocket.  `stepover` is computed by the
source but never used and is omitted here.  `diameter * 0.5` is exact in
rationals as in binary doubles.  The loop `for (pass = 1; pass <=
numPasses; pass++)` runs `numPasses` times (`Int.toNat` clips the
non-positive case, where the JS loop body never executes).  The circle
move's X is `parseFloat(x) + spiralRadius` where `x` is the already
`toFixed(3)`-rounded center coordinate, hence the `toFixed3`.  (With an
absent `diameter` the JS computation produces NaN and loops forever; no
claim touches that region, and `validateConfig` rejects it.) -/
def _generatePocketHole (hole : Hole) (config : DrillConfig) : List SBPLine :=
  let x := hole.x
  let y := hole.y
  let diameter := config.diameter.getD 0
  let depth := abs (config.depth.getD 0)
  let depthPerPass := min (diameter * (1 / 2)) (1 / 4)
  let numPasses : ℤ := ⌈depth / depthPerPass⌉
  let actualDepthPerPass := depth / (numPasses : ℚ)
  [SBPLine.commentPocket numPasses.toNat,
   SBPLine.j2 x y] ++
  ((List.range numPasses.toNat).flatMap (fun p =>
    let pass := p + 1
    let currentDepth := -actualDepthPerPass * (pass : ℚ)
    let spiralRadius := diameter / 2
    [SBPLine.commentPass pass currentDepth,
     SBPLine.m2 x y currentDepth] ++
    (if 0 < spiralRadius then
      [SBPLine.m2xy (toFixed3 x + spiralRadius) y,
       SBPLine.cg x y currentDepth]
     else []))) ++
  [SBPLine.j2 x y,
   SBPLine.jzVar]

/-- `_generateCounterboreHole`: pilot-hole plunge with the base
`diameter`/`depth`, then, when `config.cbDiameter && config.cbDepth` is
truthy, the counterbore pocket with a fresh config holding only
`cbDiameter`, `cbDepth` and type pocket. -/
def _generateCounterboreHole (hole : Hole) (config : DrillConfig) : List SBPLine :=
  [SBPLine.comment (r"Drilling pilot hole")] ++
  _generatePlungeHole hole config ++
  (if truthy config.cbDiameter && truthy config.cbDepth then
    [SBPLine.blank,
     SBPLine.comment (r"Counterbore pocket")] ++
    _generatePocketHole hole
      ⟨(r"pocket"), config.cbDiameter, config.cbDepth, none, none, none, none, none, none⟩
   else [])

/-- `_generateHoleOperation`: per-hole banner comment, the body selected by
`config.type` (the JS `switch` lets `through` and `blind` share the plunge
branch and sends every unrecognized value to the plunge default), and a
trailing blank line. -/
def _generateHoleOperation (hole : Hole) (holeNum : ℕ) (config : DrillConfig) : List SBPLine :=
  [SBPLine.commentHole holeNum hole.x hole.y] ++
  (if config.type = (r"through") ∨ config.type = (r"blind") then
    _generatePlungeHole hole config
   else if config.type = (r"pocket") then
    _generatePocketHole hole config
   else if config.type = (r"counterbore") then
    _generateCounterboreHole hole config
   else
    _generatePlungeHole hole config) ++
  [SBPLine.blank]

/-- `validateConfig`: each violated constraint pushes its own message;
`!field` is JS truthiness and the comparisons follow JS semantics on
possibly-`undefined` operands (`jsLe`). -/
def validateConfig (config : DrillConfig) : List String :=
  (if !truthy config.diameter || jsLe config.diameter (some 0) then
    [(r"Diameter must be greater than 0")]
   else []) ++
  (if !truthy config.depth || jsLe config.depth (some 0) then
    [(r"Depth must be greater than 0")]
   else []) ++
  (if config.type = (r"counterbore") then
    (if !truthy config.cbDiameter || jsLe config.cbDiameter config.diameter then
      [(r"Counterbore diameter must be larger than hole diameter")]
     else []) ++
    (if !truthy config.cbDepth || jsLe config.cbDepth (some 0) then
      [(r"Counterbore depth must be greater than 0")]
     else [])
   else [])

/-- The `sortedHoles.forEach` of `generate`: one operation block per hole,
numbered by its 1-based position in the optimized order. -/
def _allOps (sorted : List Hole) (config : DrillConfig) : List SBPLine :=
  sorted.enum.flatMap (fun ih => _generateHoleOperation ih.2 (ih.1 + 1) config)

/-- `generate(holes, config)`: the empty-input check
(`!holes || holes.length === 0`) throws the one input error; otherwise the
program is header, initialization, tour-ordered per-hole operations and
footer, joined by newlines (list concatenation here).  When `config.depth`
is absent, the JS run crashes inside `_generateInit`
(`undefined.toFixed(3)` raises a `TypeError`) before any text is returned;
that crash is hoisted to an explicit error case here so the success branch
carries plain rationals.  The footer call passes
`{safeZ: config.safeZ || settings.safeZ}` and no `returnHome` option. -/
def generate (holes : Option (List Hole)) (config : DrillConfig) (settings : Settings) :
    Except String (List SBPLine) :=
  match holes with
  | none => Except.error (r"No holes to drill")
  | some hs =>
    if hs.length = 0 then Except.error (r"No holes to drill")
    else
      match config.depth with
      | none => Except.error (r"TypeError: cannot read toFixed of undefined")
      | some _ =>
        Except.ok
          (_generateHeader hs config ++
           _generateInit config settings ++
           _allOps (_optimizeHoleOrder hs) config ++
           CobotCore.generateSBPFooter ⟨some (jsOr config.safeZ settings.safeZ), none⟩ settings)

/-- A JS array value together with its allocation identity (`ref` models
the object reference of the array).  Used to state which array object
`_optimizeHoleOrder` hands back to its caller. -/
structure JSArray where
  ref : ℕ
  data : List Hole
deriving DecidableEq, Repr

/-- `_optimizeHoleOrder` at the array-object level: on the
`holes.length <= 1` branch the source executes `return holes`, handing back
the caller's own array object; on the other branch the returned array is
`sorted`, freshly allocated by `const sorted = []` (`freshRef`, assumed
distinct from the caller's reference, models that allocation). -/
def _optimizeHoleOrderArr (holes : JSArray) (freshRef : ℕ) : JSArray :=
  if holes.data.length ≤ 1 then holes
  else ⟨freshRef, _optimizeHoleOrder holes.data⟩

/-- State of the imperative core of `_optimizeHoleOrder`: the caller-owned
array contents plus the locals `sorted`, `remaining` and `current`.  Every
mutating statement of the source (`sorted.push`, `remaining.splice`)
targets the locals; the `holes` component records the caller's array, which
the algorithm only reads (once, to build the `[...holes]` copy). -/
structure OptState where
  holes : List Hole
  sorted : List Hole
  remaining : List Hole
  current : Hole
deriving DecidableEq, Repr

/-- The `while (remaining.length > 0)` loop of `_optimizeHoleOrder` as a
state transformer: pick the nearest remaining hole, push it onto `sorted`,
splice it out of `remaining`, make it current. -/
def optLoop : ℕ → OptState → OptState
  | 0, s => s
  | n + 1, s =>
    match s.remaining with
    | [] => s
    | h :: t =>
      let nearest := selectBy (distSq s.current) h t
      optLoop n ⟨s.holes, s.sorted ++ [nearest], (h :: t).erase nearest, nearest⟩

/-- The imperative run of `_optimizeHoleOrder` on an input with at least
one hole: copy the input into `remaining`, seed with the hole nearest the
origin, move it to `sorted`, then loop. -/
def optRun (h : Hole) (t : List Hole) : OptState :=
  let holes := h :: t
  let current := selectBy origDistSq h t
  let remaining := holes.erase current
  optLoop remaining.length ⟨holes, [current], remaining, current⟩

/-- The plunge-target Z coordinates of the full `M2` moves emitted in a
line list: exactly one per pocket depth pass. -/
def m2Depths (lines : List SBPLine) : List ℚ :=
  lines.filterMap (fun l =>
    match l with
    | SBPLine.m2 _ _ z => some z
    | _ => none)

/-- Is this line a retract to the given resolved safe height — either the
symbolic `JZ,%(safeZ)` reference or a literal jog-Z to that value? -/
def isSafeRetract (z : ℚ) : SBPLine → Bool
  | SBPLine.jzVar => true
  | SBPLine.jz q => decide (q = z)
  | _ => false

/-- Is this line a literal (non-symbolic) jog-Z instruction? -/
def isJzLiteral : SBPLine → Bool
  | SBPLine.jz _ => true
  | _ => false

end DrillToolpath

/-- A concrete hole used by witnesses and counterexamples. -/
def h0 : Hole := ⟨1, 2, 0, 0, 1⟩

/-- A second concrete hole. -/
def h1 : Hole := ⟨3, 0, 0, 0, 2⟩

/-- Concrete global settings for witnesses. -/
def st0 : Settings := ⟨1 / 2, 2, 1 / 2, 3⟩

/-- A plain through-hole configuration. -/
def cfgThrough : DrillConfig :=
  ⟨(r"through"), some (1 / 4), some (1 / 2), none, none, none, none, none, none⟩

/-- The pocket configuration of the claim's concrete instance
(diameter 0.5, depth 1.0). -/
def cfgPocket : DrillConfig :=
  ⟨(r"pocket"), some (1 / 2), some 1, none, none, none, none, none, none⟩

/-- A counterbore configuration whose `cbDiameter` is present but `0`
(falsy in JS). -/
def cfgCounterboreZero : DrillConfig :=
  ⟨(r"counterbore"), some (1 / 2), some (1 / 2), some 0, some (1 / 4), none, none, none, none⟩

/-- The invalid counterbore configuration from the claim:
`{type: counterbore, diameter: 0.5, depth: 0.5, cbDiameter: 0.4, cbDepth: 0.2}`. -/
def cfgCounterboreBad : DrillConfig :=
  ⟨(r"counterbore"), some (1 / 2), some (1 / 2), some (2 / 5), some (1 / 5), none, none, none, none⟩

/-- A well-formed counterbore configuration. -/
def cfgCounterboreFull : DrillConfig :=
  ⟨(r"counterbore"), some (1 / 4), some (3 / 4), some (3 / 4), some (1 / 4), none, none, none, none⟩

/-- The concrete program generated for one through-hole with the fixture
configuration and settings (used by witnesses and counterexamples). -/
def prog0 : List SBPLine :=
  (DrillToolpath.generate (some [h0]) cfgThrough st0).toOption.getD []

namespace DrillToolpath

lemma selectBy_mem (f : Hole → ℚ) (t : List Hole) (h : Hole) :
    selectBy f h t ∈ h :: t := by
  induction t generalizing h with
  | nil => simp [selectBy]
  | cons x t ih =>
    have hstep : selectBy f h (x :: t) = selectBy f (if f x < f h then x else h) t := by
      simp [selectBy]
    rw [hstep]
    by_cases hc : f x < f h
    · rw [if_pos hc]
      rcases List.mem_cons.mp (ih x) with h1 | h2
      · simp [h1]
      · simp [List.mem_cons, h2]
    · rw [if_neg hc]
      rcases List.mem_cons.mp (ih h) with h1 | h2
      · simp [h1]
      · simp [List.mem_cons, h2]

lemma nnLoop_perm :
    ∀ (n : ℕ) (cur : Hole) (rem : List Hole), rem.length = n →
      (nnLoop n cur rem).Perm rem := by
  intro n
  induction n with
  | zero =>
    intro cur rem hlen
    have : rem = [] := List.length_eq_zero.mp hlen
    subst this
    simp [nnLoop]
  | succ n ih =>
    intro cur rem hlen
    match rem with
    | [] => simp [nnLoop]
    | h :: t =>
      have hmem : selectBy (distSq cur) h t ∈ h :: t := selectBy_mem _ _ _
      have hlen2 : ((h :: t).erase (selectBy (distSq cur) h t)).length = n := by
        rw [List.length_erase_of_mem hmem]
        simpa using hlen
      have hrec := ih (selectBy (distSq cur) h t) _ hlen2
      have hcons :
          nnLoop (n + 1) cur (h :: t) =
            selectBy (distSq cur) h t ::
              nnLoop n (selectBy (distSq cur) h t)
                ((h :: t).erase (selectBy (distSq cur) h t)) := rfl
      rw [hcons]
      exact ((hrec.cons _).trans (List.perm_cons_erase hmem).symm)

lemma minValOf_nil (f : Hole → ℚ) (h : Hole) : minValOf f h [] = f h := rfl

lemma minValOf_cons (f : Hole → ℚ) (h x : Hole) (t : List Hole) :
    minValOf f h (x :: t) = minValOf f (if f x < f h then x else h) t := by
  unfold minValOf
  simp only [List.map_cons, List.foldl_cons]
  congr 1
  by_cases hc : f x < f h
  · rw [if_pos hc, min_def, if_neg (not_le_of_lt hc)]
  · rw [if_neg hc, min_def, if_pos (le_of_not_lt hc)]

lemma selectBy_cons (f : Hole → ℚ) (h x : Hole) (t : List Hole) :
    selectBy f h (x :: t) = selectBy f (if f x < f h then x else h) t := rfl

lemma minValOf_le (f : Hole → ℚ) :
    ∀ (t : List Hole) (h : Hole), ∀ y ∈ h :: t, minValOf f h t ≤ f y := by
  intro t
  induction t with
  | nil =>
    intro h y hy
    rcases List.mem_cons.mp hy with h1 | h1
    · subst h1; exact le_of_eq (minValOf_nil f y)
    · exact absurd h1 (List.not_mem_nil _)
  | cons x t ih =>
    intro h y hy
    rw [minValOf_cons]
    have hh' : f (if f x < f h then x else h) ≤ f h ∧ f (if f x < f h then x else h) ≤ f x := by
      by_cases hc : f x < f h
      · rw [if_pos hc]; exact ⟨le_of_lt hc, le_refl _⟩
      · rw [if_neg hc]; exact ⟨le_refl _, le_of_not_lt hc⟩
    have hhead : minValOf f (if f x < f h then x else h) t ≤ f (if f x < f h then x else h) :=
      ih _ _ (List.mem_cons_self _ _)
    rcases List.mem_cons.mp hy with h1 | h1
    · subst h1; exact le_trans hhead hh'.1
    · rcases List.mem_cons.mp h1 with h2 | h2
      · subst h2; exact le_trans hhead hh'.2
      · exact ih _ _ (List.mem_cons_of_mem _ h2)

lemma find?_minValOf_eq_selectBy (f : Hole → ℚ) :
    ∀ (t : List Hole) (h : Hole),
      (h :: t).find? (fun x => decide (f x = minValOf f h t)) = some (selectBy f h t) := by
  intro t
  induction t with
  | nil =>
    intro h
    simp [minValOf_nil, selectBy]
  | cons x t ih =>
    intro h
    rw [minValOf_cons, selectBy_cons]
    by_cases hh : f h = minValOf f (if f x < f h then x else h) t
    · have hph : decide (f h = minValOf f (if f x < f h then x else h) t) = true := by
        simpa using hh
      simp only [List.find?_cons]
      rw [hph]
      have hxh : ¬ f x < f h := by
        intro hlt
        have h1 : minValOf f h (x :: t) ≤ f x :=
          minValOf_le f (x :: t) h x (List.mem_cons_of_mem _ (List.mem_cons_self _ _))
        rw [minValOf_cons] at h1
        exact absurd (lt_of_lt_of_le (hh ▸ hlt) h1) (lt_irrefl _)
      rw [if_neg hxh] at hh ⊢
      have hih := ih h
      have hph2 : decide (f h = minValOf f h t) = true := by simpa using hh
      simp only [List.find?_cons] at hih
      rw [hph2] at hih
      exact hih
    · have hph : decide (f h = minValOf f (if f x < f h then x else h) t) = false := by
        simpa using hh
      have hMh : minValOf f (if f x < f h then x else h) t ≤ f h := by
        have h1 : minValOf f h (x :: t) ≤ f h :=
          minValOf_le f (x :: t) h h (List.mem_cons_self _ _)
        rwa [minValOf_cons] at h1
      simp only [List.find?_cons]
      rw [hph]
      by_cases hxc : f x < f h
      · rw [if_pos hxc]
        have hih := ih x
        simp only [List.find?_cons] at hih
        exact hih
      · rw [if_neg hxc] at hph hMh hh ⊢
        have hMlt : minValOf f h t < f h :=
          lt_of_le_of_ne hMh (fun heq => hh heq.symm)
        have hMx : decide (f x = minValOf f h t) = false := by
          simp only [decide_eq_false_iff_not]
          intro heq
          have hle : f h ≤ f x := le_of_not_lt hxc
          rw [heq] at hle
          exact absurd (lt_of_le_of_lt hle hMlt) (lt_irrefl _)
        rw [hMx]
        have hih := ih h
        simp only [List.find?_cons] at hih
        rw [hph] at hih
        exact hih

lemma specLoop_eq_nnLoop : ∀ (n : ℕ) (cur : Hole) (rem : List Hole),
    specLoop n cur rem = nnLoop n cur rem := by
  intro n
  induction n with
  | zero => intro cur rem; rfl
  | succ n ih =>
    intro cur rem
    cases rem with
    | nil => rfl
    | cons h t =>
      show (match earliestMin (distSq cur) h t with
            | none => []
            | some m => m :: specLoop n m ((h :: t).erase m)) = _
      rw [earliestMin, find?_minValOf_eq_selectBy]
      show selectBy (distSq cur) h t ::
            specLoop n (selectBy (distSq cur) h t)
              ((h :: t).erase (selectBy (distSq cur) h t)) = _
      rw [ih]
      rfl

lemma optimizeHoleOrder_cons2 (h x : Hole) (t : List Hole) :
    _optimizeHoleOrder (h :: x :: t) =
      selectBy origDistSq h (x :: t) ::
        nnLoop ((h :: x :: t).erase (selectBy origDistSq h (x :: t))).length
          (selectBy origDistSq h (x :: t))
          ((h :: x :: t).erase (selectBy origDistSq h (x :: t))) := by
  unfold _optimizeHoleOrder
  rw [if_neg (by simp : ¬ (h :: x :: t).length ≤ 1)]

lemma specOptimizeOrder_cons2 (h x : Hole) (t : List Hole) :
    specOptimizeOrder (h :: x :: t) =
      match earliestMin origDistSq h (x :: t) with
      | none => []
      | some s => s :: specLoop ((h :: x :: t).erase s).length s ((h :: x :: t).erase s) := by
  unfold specOptimizeOrder
  rw [if_neg (by simp : ¬ (h :: x :: t).length ≤ 1)]

end DrillToolpath

/-- C1: for every list of holes `H`, the tour optimizer
`DrillToolpath._optimizeHoleOrder` returns a permutation of `H`: the same
length, with each hole record of `H` appearing exactly once (the same
multiset of records, hence of coordinates). -/
theorem optimizeHoleOrder_perm (H : List Hole) :
    (DrillToolpath._optimizeHoleOrder H).Perm H := by
  unfold DrillToolpath._optimizeHoleOrder
  by_cases hlen : H.length ≤ 1
  · simp [hlen]
  · simp only [hlen, if_false]
    match H with
    | [] => simp
    | h :: t =>
      have hmem : DrillToolpath.selectBy DrillToolpath.origDistSq h t ∈ h :: t :=
        DrillToolpath.selectBy_mem _ _ _
      have hrec :=
        DrillToolpath.nnLoop_perm
          ((h :: t).erase (DrillToolpath.selectBy DrillToolpath.origDistSq h t)).length
          (DrillToolpath.selectBy DrillToolpath.origDistSq h t)
          ((h :: t).erase (DrillToolpath.selectBy DrillToolpath.origDistSq h t)) rfl
      exact ((hrec.cons _).trans (List.perm_cons_erase hmem).symm)

/-- C3: the optimizer agrees everywhere with the specification's greedy
description `specOptimizeOrder`: lists of 0 or 1 holes are returned
unchanged, the output starts with the earliest hole at minimum Euclidean
distance from the origin, and each subsequent element is the earliest
not-yet-visited hole at minimum Euclidean distance from the previously
chosen one, until all holes are visited.  Both sides are plain functions of
the input list, so the result is deterministic for a fixed input order. -/
theorem optimizeHoleOrder_eq_spec (H : List Hole) :
    DrillToolpath._optimizeHoleOrder H = DrillToolpath.specOptimizeOrder H := by
  match H with
  | [] => rfl
  | [h] => rfl
  | h :: x :: t =>
    rw [DrillToolpath.optimizeHoleOrder_cons2, DrillToolpath.specOptimizeOrder_cons2]
    have hsel :
        DrillToolpath.earliestMin DrillToolpath.origDistSq h (x :: t) =
          some (DrillToolpath.selectBy DrillToolpath.origDistSq h (x :: t)) :=
      DrillToolpath.find?_minValOf_eq_selectBy DrillToolpath.origDistSq (x :: t) h
    simp only [hsel]
    rw [DrillToolpath.specLoop_eq_nnLoop]

/-- C2: `generate` raises the empty-input error `No holes to drill` if and
only if the holes argument is absent or the empty list.  In that case the
result is the bare error — no program fragment is assembled — and for every
non-empty holes list this error is not raised (an absent `config.depth`
makes the JS run die with a `TypeError` instead, which is a different
error). -/
theorem generate_noHoles_iff (holes : Option (List Hole)) (config : DrillConfig)
    (settings : Settings) :
    DrillToolpath.generate holes config settings = Except.error (r"No holes to drill") ↔
      holes = none ∨ holes = some [] := by
  cases holes with
  | none => simp [DrillToolpath.generate]
  | some hs =>
    cases hs with
    | nil => simp [DrillToolpath.generate]
    | cons h t =>
      simp only [DrillToolpath.generate, List.length_cons]
      rw [if_neg (by simp)]
      cases config.depth with
      | none => simp
      | some d => simp

/-- Closed witness for C2 at concrete inputs: the error is raised on
`none` and on the empty list, and not on a singleton list. -/
theorem generate_noHoles_iff_witness :
    (DrillToolpath.generate none cfgThrough st0 = Except.error (r"No holes to drill")) ∧
    (DrillToolpath.generate (some []) cfgThrough st0 = Except.error (r"No holes to drill")) ∧
    ¬ (DrillToolpath.generate (some [h0]) cfgThrough st0 =
        Except.error (r"No holes to drill")) :=
  ⟨(generate_noHoles_iff none cfgThrough st0).mpr (Or.inl rfl),
   (generate_noHoles_iff (some []) cfgThrough st0).mpr (Or.inr rfl),
   fun hcontra => by
     have := (generate_noHoles_iff (some [h0]) cfgThrough st0).mp hcontra
     simp at this⟩

namespace DrillToolpath

lemma ite_singleton_eq_nil_iff {c : Bool} {m : String} :
    (if c then [m] else []) = ([] : List String) ↔ c = false := by
  cases c <;> simp

lemma posCheck_iff (o : Option ℚ) :
    (!truthy o || jsLe o (some 0)) = false ↔ ∃ d, o = some d ∧ 0 < d := by
  cases o with
  | none => simp [truthy, jsLe]
  | some q =>
    simp only [truthy, jsLe, Bool.or_eq_false_iff, Bool.not_eq_false', decide_eq_true_eq,
      decide_eq_false_iff_not, not_le, Option.some.injEq]
    constructor
    · rintro ⟨hne, hpos⟩
      exact ⟨q, rfl, hpos⟩
    · rintro ⟨d, hd, hpos⟩
      cases hd
      exact ⟨ne_of_gt hpos, hpos⟩

lemma cbDiaCheck_iff (cbD : Option ℚ) (d : ℚ) (hd : 0 < d) :
    (!truthy cbD || jsLe cbD (some d)) = false ↔ ∃ cd, cbD = some cd ∧ d < cd := by
  cases cbD with
  | none => simp [truthy, jsLe]
  | some q =>
    simp only [truthy, jsLe, Bool.or_eq_false_iff, Bool.not_eq_false', decide_eq_true_eq,
      decide_eq_false_iff_not, not_le, Option.some.injEq]
    constructor
    · rintro ⟨hne, hlt⟩
      exact ⟨q, rfl, hlt⟩
    · rintro ⟨cd, hcd, hlt⟩
      cases hcd
      exact ⟨ne_of_gt (lt_trans hd hlt), hlt⟩

end DrillToolpath

/-- C5: `validateConfig` returns the empty list exactly when `diameter` is
present and positive, `depth` is present and positive, and — for type
`counterbore` — `cbDiameter` is present and strictly greater than
`diameter` and `cbDepth` is present and positive.  Each violated constraint
contributes its own message to the single returned list (the counterbore
diameter constraint is stated for a present base diameter, which the claim
presupposes by comparing against it); the function is total, so it never
throws.  In particular the claim's concrete counterbore configuration with
`cbDiameter = 0.4 < diameter = 0.5` yields a non-empty list. -/
theorem validateConfig_spec :
    (∀ config : DrillConfig,
      DrillToolpath.validateConfig config = [] ↔
        ((∃ d, config.diameter = some d ∧ 0 < d) ∧
         (∃ t, config.depth = some t ∧ 0 < t) ∧
         (config.type = (r"counterbore") →
           (∃ cd d, config.cbDiameter = some cd ∧ config.diameter = some d ∧ d < cd) ∧
           (∃ ct, config.cbDepth = some ct ∧ 0 < ct)))) ∧
    (∀ config : DrillConfig, ¬ (∃ d, config.diameter = some d ∧ 0 < d) →
      (r"Diameter must be greater than 0") ∈ DrillToolpath.validateConfig config) ∧
    (∀ config : DrillConfig, ¬ (∃ t, config.depth = some t ∧ 0 < t) →
      (r"Depth must be greater than 0") ∈ DrillToolpath.validateConfig config) ∧
    (∀ config : DrillConfig, ∀ d, config.diameter = some d →
      config.type = (r"counterbore") →
      ¬ (∃ cd, config.cbDiameter = some cd ∧ d < cd) →
      (r"Counterbore diameter must be larger than hole diameter") ∈
        DrillToolpath.validateConfig config) ∧
    (∀ config : DrillConfig, config.type = (r"counterbore") →
      ¬ (∃ ct, config.cbDepth = some ct ∧ 0 < ct) →
      (r"Counterbore depth must be greater than 0") ∈ DrillToolpath.validateConfig config) ∧
    DrillToolpath.validateConfig cfgCounterboreBad ≠ [] := by
  have hiff : ∀ config : DrillConfig,
      DrillToolpath.validateConfig config = [] ↔
        ((∃ d, config.diameter = some d ∧ 0 < d) ∧
         (∃ t, config.depth = some t ∧ 0 < t) ∧
         (config.type = (r"counterbore") →
           (∃ cd d, config.cbDiameter = some cd ∧ config.diameter = some d ∧ d < cd) ∧
           (∃ ct, config.cbDepth = some ct ∧ 0 < ct))) := by
    intro config
    unfold DrillToolpath.validateConfig
    by_cases hty : config.type = (r"counterbore")
    · rw [if_pos hty]
      simp only [List.append_eq_nil, DrillToolpath.ite_singleton_eq_nil_iff]
      constructor
      · rintro ⟨⟨hc1, hc2⟩, hc3, hc4⟩
        obtain ⟨d, hd, hdpos⟩ := (DrillToolpath.posCheck_iff _).mp hc1
        obtain ⟨t, ht, htpos⟩ := (DrillToolpath.posCheck_iff _).mp hc2
        refine ⟨⟨d, hd, hdpos⟩, ⟨t, ht, htpos⟩, fun _ => ⟨?_, ?_⟩⟩
        · rw [hd] at hc3
          obtain ⟨cd, hcd, hlt⟩ := (DrillToolpath.cbDiaCheck_iff _ d hdpos).mp hc3
          exact ⟨cd, d, hcd, hd, hlt⟩
        · exact (DrillToolpath.posCheck_iff _).mp hc4
      · rintro ⟨⟨d, hd, hdpos⟩, ⟨t, ht, htpos⟩, hcb⟩
        obtain ⟨⟨cd, d2, hcd, hd2, hlt⟩, hct⟩ := hcb hty
        rw [hd] at hd2
        cases hd2
        refine ⟨⟨(DrillToolpath.posCheck_iff _).mpr ⟨d, hd, hdpos⟩,
                 (DrillToolpath.posCheck_iff _).mpr ⟨t, ht, htpos⟩⟩, ?_, ?_⟩
        · rw [hd]
          exact (DrillToolpath.cbDiaCheck_iff _ d hdpos).mpr ⟨cd, hcd, hlt⟩
        · exact (DrillToolpath.posCheck_iff _).mpr hct
    · rw [if_neg hty]
      simp only [List.append_nil, List.append_eq_nil, DrillToolpath.ite_singleton_eq_nil_iff]
      constructor
      · rintro ⟨hc1, hc2⟩
        exact ⟨(DrillToolpath.posCheck_iff _).mp hc1, (DrillToolpath.posCheck_iff _).mp hc2,
               fun hty2 => absurd hty2 hty⟩
      · rintro ⟨⟨d, hd, hdpos⟩, ⟨t, ht, htpos⟩, _⟩
        exact ⟨(DrillToolpath.posCheck_iff _).mpr ⟨d, hd, hdpos⟩,
               (DrillToolpath.posCheck_iff _).mpr ⟨t, ht, htpos⟩⟩
  have hmem1 : ∀ config : DrillConfig, ¬ (∃ d, config.diameter = some d ∧ 0 < d) →
      (r"Diameter must be greater than 0") ∈ DrillToolpath.validateConfig config := by
    intro config hno
    unfold DrillToolpath.validateConfig
    rcases Bool.eq_false_or_eq_true
        (!truthy config.diameter || jsLe config.diameter (some 0)) with hb | hb
    · rw [if_pos hb]
      exact List.mem_append.mpr (Or.inl (List.mem_append.mpr (Or.inl (by simp))))
    · exact absurd ((DrillToolpath.posCheck_iff _).mp hb) hno
  have hmem2 : ∀ config : DrillConfig, ¬ (∃ t, config.depth = some t ∧ 0 < t) →
      (r"Depth must be greater than 0") ∈ DrillToolpath.validateConfig config := by
    intro config hno
    unfold DrillToolpath.validateConfig
    rcases Bool.eq_false_or_eq_true
        (!truthy config.depth || jsLe config.depth (some 0)) with hb | hb
    · rw [if_pos hb]
      exact List.mem_append.mpr (Or.inl (List.mem_append.mpr (Or.inr (by simp))))
    · exact absurd ((DrillToolpath.posCheck_iff _).mp hb) hno
  have hmem3 : ∀ config : DrillConfig, ∀ d, config.diameter = some d →
      config.type = (r"counterbore") →
      ¬ (∃ cd, config.cbDiameter = some cd ∧ d < cd) →
      (r"Counterbore diameter must be larger than hole diameter") ∈
        DrillToolpath.validateConfig config := by
    intro config d hd hty hno
    unfold DrillToolpath.validateConfig
    rw [if_pos hty]
    rcases Bool.eq_false_or_eq_true
        (!truthy config.cbDiameter || jsLe config.cbDiameter config.diameter) with hb | hb
    · rw [if_pos hb]
      exact List.mem_append.mpr (Or.inr (List.mem_append.mpr (Or.inl (by simp))))
    · exfalso
      rw [hd] at hb
      rcases hq : config.cbDiameter with _ | cd
      · rw [hq] at hb
        simp [truthy] at hb
      · rw [hq] at hb
        simp only [truthy, jsLe, Bool.or_eq_false_iff, Bool.not_eq_false',
          decide_eq_true_eq, decide_eq_false_iff_not, not_le] at hb
        exact hno ⟨cd, hq, hb.2⟩
  have hmem4 : ∀ config : DrillConfig, config.type = (r"counterbore") →
      ¬ (∃ ct, config.cbDepth = some ct ∧ 0 < ct) →
      (r"Counterbore depth must be greater than 0") ∈
        DrillToolpath.validateConfig config := by
    intro config hty hno
    unfold DrillToolpath.validateConfig
    rw [if_pos hty]
    rcases Bool.eq_false_or_eq_true
        (!truthy config.cbDepth || jsLe config.cbDepth (some 0)) with hb | hb
    · rw [if_pos hb]
      exact List.mem_append.mpr (Or.inr (List.mem_append.mpr (Or.inr (by simp))))
    · exact absurd ((DrillToolpath.posCheck_iff _).mp hb) hno
  refine ⟨hiff, hmem1, hmem2, hmem3, hmem4, ?_⟩
  intro hcontra
  have hbad := hmem3 cfgCounterboreBad (1 / 2) rfl rfl (by
    rintro ⟨cd, hcd, hlt⟩
    have hcd2 : cd = 2 / 5 := by
      have : some ((2 : ℚ) / 5) = some cd := hcd
      exact (Option.some.inj this).symm
    rw [hcd2] at hlt
    norm_num at hlt)
  rw [hcontra] at hbad
  exact absurd hbad (List.not_mem_nil _)

/-- C8: for every hole, position number, and configuration whose type is
`through`, `blind`, or any value other than `pocket` and `counterbore`
(unrecognized strings reach the default branch of the switch), the
per-hole operation is the banner comment followed by exactly the
three-instruction plunge body — rapid to the hole's coordinates, straight
plunge to minus the absolute depth, retract to the symbolic safe Z — and
the separating blank line. -/
theorem holeOperation_plunge (hole : Hole) (n : ℕ) (config : DrillConfig) (t : ℚ)
    (ht : config.depth = some t)
    (h1 : config.type ≠ (r"pocket")) (h2 : config.type ≠ (r"counterbore")) :
    DrillToolpath._generateHoleOperation hole n config =
      [SBPLine.commentHole n hole.x hole.y] ++
      [SBPLine.j2 hole.x hole.y, SBPLine.mz (-(abs t)), SBPLine.jzVar] ++
      [SBPLine.blank] := by
  unfold DrillToolpath._generateHoleOperation DrillToolpath._generatePlungeHole
  rw [ht]
  by_cases hth : config.type = (r"through") ∨ config.type = (r"blind")
  · rw [if_pos hth]
    rfl
  · rw [if_neg hth, if_neg h1, if_neg h2]
    rfl

/-- Closed witness for C8 at a concrete through-hole configuration. -/
theorem holeOperation_plunge_witness :
    cfgThrough.depth = some (1 / 2) ∧ cfgThrough.type ≠ (r"pocket") ∧
    cfgThrough.type ≠ (r"counterbore") ∧
    DrillToolpath._generateHoleOperation h0 1 cfgThrough =
      [SBPLine.commentHole 1 h0.x h0.y] ++
      [SBPLine.j2 h0.x h0.y, SBPLine.mz (-(abs (1 / 2))), SBPLine.jzVar] ++
      [SBPLine.blank] :=
  ⟨rfl, by decide, by decide,
   holeOperation_plunge h0 1 cfgThrough (1 / 2) rfl (by decide) (by decide)⟩

namespace DrillToolpath

lemma m2Depths_append (a b : List SBPLine) :
    m2Depths (a ++ b) = m2Depths a ++ m2Depths b := by
  unfold m2Depths
  exact List.filterMap_append _ _ _

lemma m2Depths_flatMap (l : List ℕ) (f : ℕ → List SBPLine) :
    m2Depths (l.flatMap f) = l.flatMap (fun p => m2Depths (f p)) := by
  induction l with
  | nil => rfl
  | cons p l ih => simp only [List.flatMap_cons, m2Depths_append, ih]

lemma m2Depths_passBlock (k : ℕ) (x y z cx cy : ℚ) (c : Prop) [Decidable c] :
    m2Depths ([SBPLine.commentPass k z, SBPLine.m2 x y z] ++
      (if c then [SBPLine.m2xy cx cy, SBPLine.cg x y z] else [])) = [z] := by
  by_cases hc : c <;> simp [m2Depths, hc]

lemma flatMap_singleton_map (l : List ℕ) (g : ℕ → ℚ) :
    (l.flatMap (fun p => [g p])) = l.map g := by
  induction l with
  | nil => rfl
  | cons p l ih => simp only [List.flatMap_cons, ih, List.map_cons, List.singleton_append]

end DrillToolpath

/-- C4: for a pocket operation with positive diameter `d` and positive
depth `t` the synthesizer caps the per-pass depth at `min(0.5*d, 0.25)`,
computes `numPasses = ceil(t / cap)` (a positive count), and the plunge
targets of the emitted passes are exactly `-(t/numPasses)*k` for
`k = 1..numPasses`: equal passes of `t/numPasses` each, with no differing
remainder pass.  The claim's instance diameter `0.5`, depth `1.0` (4 equal
passes of `0.25`) is evaluated in the witness. -/
theorem pocket_pass_depths (hole : Hole) (config : DrillConfig) (d t : ℚ)
    (hd : config.diameter = some d) (ht : config.depth = some t)
    (hd0 : 0 < d) (ht0 : 0 < t) :
    0 < (⌈t / min (d * (1 / 2)) (1 / 4)⌉ : ℤ) ∧
    DrillToolpath.m2Depths (DrillToolpath._generatePocketHole hole config) =
      (List.range (⌈t / min (d * (1 / 2)) (1 / 4)⌉ : ℤ).toNat).map
        (fun k => -(t / ((⌈t / min (d * (1 / 2)) (1 / 4)⌉ : ℤ) : ℚ)) * ((k + 1 : ℕ) : ℚ)) := by
  have hcap : 0 < min (d * (1 / 2)) (1 / 4) := lt_min (by linarith) (by norm_num)
  have hceil : 0 < (⌈t / min (d * (1 / 2)) (1 / 4)⌉ : ℤ) :=
    Int.ceil_pos.mpr (div_pos ht0 hcap)
  refine ⟨hceil, ?_⟩
  rcases config with ⟨ty, dia, dep, cbD, cbT, sz, fr, pr, mt⟩
  simp only at hd ht
  subst hd
  subst ht
  simp only [DrillToolpath._generatePocketHole, Option.getD_some]
  rw [abs_of_pos ht0]
  rw [DrillToolpath.m2Depths_append, DrillToolpath.m2Depths_append,
    DrillToolpath.m2Depths_flatMap]
  simp only [DrillToolpath.m2Depths_passBlock]
  rw [DrillToolpath.flatMap_singleton_map]
  have hnil1 :
      DrillToolpath.m2Depths
        [SBPLine.commentPocket (⌈t / min (d * (1 / 2)) (1 / 4)⌉ : ℤ).toNat,
         SBPLine.j2 hole.x hole.y] = [] := rfl
  have hnil2 : DrillToolpath.m2Depths [SBPLine.j2 hole.x hole.y, SBPLine.jzVar] = [] := rfl
  rw [hnil1, hnil2, List.nil_append, List.append_nil]

/-- C7 counterexample: with both counterbore fields present but
`cbDiameter = 0` (falsy in JS), the synthesizer emits only the pilot
plunge — no pocket sequence follows — refuting the claim that the pocket
is emitted if and only if both fields are present. -/
theorem counterbore_present_zero_no_pocket :
    cfgCounterboreZero.cbDiameter.isSome = true ∧
    cfgCounterboreZero.cbDepth.isSome = true ∧
    DrillToolpath._generateCounterboreHole h0 cfgCounterboreZero =
      [SBPLine.comment (r"Drilling pilot hole"),
       SBPLine.j2 1 2, SBPLine.mz (-(1 / 2)), SBPLine.jzVar] := by
  refine ⟨rfl, rfl, ?_⟩
  have hc : (truthy cfgCounterboreZero.cbDiameter && truthy cfgCounterboreZero.cbDepth)
      = false := by
    norm_num [truthy, cfgCounterboreZero]
  unfold DrillToolpath._generateCounterboreHole DrillToolpath._generatePlungeHole
  rw [hc]
  norm_num [cfgCounterboreZero, h0]

/-- C7 amended: under the counterbore type the synthesizer emits the pilot
plunge (base diameter/depth) and appends the pocket sequence built from
`cbDiameter`/`cbDepth` at the same hole exactly when both counterbore
fields are present with nonzero (truthy) values; when either is absent or
zero, only the pilot plunge is emitted.  No error is raised in either case
(the function is total). -/
theorem counterbore_pocket_iff (hole : Hole) (n : ℕ) (config : DrillConfig) (t : ℚ)
    (ht : config.depth = some t) (hty : config.type = (r"counterbore")) :
    ((truthy config.cbDiameter && truthy config.cbDepth) = true →
      DrillToolpath._generateHoleOperation hole n config =
        [SBPLine.commentHole n hole.x hole.y,
         SBPLine.comment (r"Drilling pilot hole"),
         SBPLine.j2 hole.x hole.y, SBPLine.mz (-(abs t)), SBPLine.jzVar,
         SBPLine.blank,
         SBPLine.comment (r"Counterbore pocket")] ++
        DrillToolpath._generatePocketHole hole
          ⟨(r"pocket"), config.cbDiameter, config.cbDepth,
           none, none, none, none, none, none⟩ ++
        [SBPLine.blank]) ∧
    ((truthy config.cbDiameter && truthy config.cbDepth) = false →
      DrillToolpath._generateHoleOperation hole n config =
        [SBPLine.commentHole n hole.x hole.y,
         SBPLine.comment (r"Drilling pilot hole"),
         SBPLine.j2 hole.x hole.y, SBPLine.mz (-(abs t)), SBPLine.jzVar,
         SBPLine.blank]) := by
  constructor
  · intro hcb
    unfold DrillToolpath._generateHoleOperation DrillToolpath._generateCounterboreHole
      DrillToolpath._generatePlungeHole
    rw [hty, ht]
    rw [if_neg (by decide), if_neg (by decide), if_pos rfl, if_pos hcb]
    simp [List.append_assoc]
  · intro hcb
    unfold DrillToolpath._generateHoleOperation DrillToolpath._generateCounterboreHole
      DrillToolpath._generatePlungeHole
    rw [hty, ht]
    rw [if_neg (by decide), if_neg (by decide), if_pos rfl,
      if_neg (by rw [hcb]; exact Bool.false_ne_true)]
    simp [List.append_assoc]

/-- Closed witness for C7 (amended) at a fully-populated counterbore
configuration: the pocket sequence is appended after the pilot plunge. -/
theorem counterbore_pocket_iff_witness :
    cfgCounterboreFull.depth = some (3 / 4) ∧
    cfgCounterboreFull.type = (r"counterbore") ∧
    (truthy cfgCounterboreFull.cbDiameter && truthy cfgCounterboreFull.cbDepth) = true ∧
    DrillToolpath._generateHoleOperation h0 1 cfgCounterboreFull =
      [SBPLine.commentHole 1 h0.x h0.y,
       SBPLine.comment (r"Drilling pilot hole"),
       SBPLine.j2 h0.x h0.y, SBPLine.mz (-(abs (3 / 4))), SBPLine.jzVar,
       SBPLine.blank,
       SBPLine.comment (r"Counterbore pocket")] ++
      DrillToolpath._generatePocketHole h0
        ⟨(r"pocket"), some (3 / 4), some (1 / 4),
         none, none, none, none, none, none⟩ ++
      [SBPLine.blank] :=
  ⟨rfl, rfl, by norm_num [truthy, cfgCounterboreFull],
   (counterbore_pocket_iff h0 1 cfgCounterboreFull (3 / 4) rfl rfl).1
     (by norm_num [truthy, cfgCounterboreFull])⟩

lemma jsOr_some (q s : ℚ) : jsOr (some q) s = if q ≠ 0 then q else s := rfl

lemma jsOr_none (s : ℚ) : jsOr none s = s := rfl

lemma jsOr_idem (o : Option ℚ) (s : ℚ) : jsOr (some (jsOr o s)) s = jsOr o s := by
  cases o with
  | none =>
    rw [jsOr_none, jsOr_some]
    split_ifs <;> rfl
  | some q =>
    rw [jsOr_some, jsOr_some]
    by_cases hq : q ≠ 0
    · rw [if_pos hq, if_pos hq]
    · rw [if_neg hq]
      split_ifs <;> rfl

namespace DrillToolpath

lemma footer_resolved (z : ℚ) (settings : Settings) :
    CobotCore.generateSBPFooter ⟨some z, none⟩ settings =
      [SBPLine.blank, SBPLine.comment (r"Cleanup"),
       SBPLine.jz (jsOr (some z) settings.safeZ), SBPLine.c7, SBPLine.j2 0 0,
       SBPLine.endMark] := by
  unfold CobotCore.generateSBPFooter
  norm_num
  rw [if_neg (by decide)]
  rfl

lemma generate_some_eq (hs : List Hole) (config : DrillConfig) (settings : Settings) :
    generate (some hs) config settings =
      if hs.length = 0 then Except.error (r"No holes to drill")
      else
        match config.depth with
        | none => Except.error (r"TypeError: cannot read toFixed of undefined")
        | some _ =>
          Except.ok
            (_generateHeader hs config ++ _generateInit config settings ++
             _allOps (_optimizeHoleOrder hs) config ++
             CobotCore.generateSBPFooter ⟨some (jsOr config.safeZ settings.safeZ), none⟩
               settings) := rfl

lemma generate_ok_eq (hs : List Hole) (config : DrillConfig) (settings : Settings)
    (p : List SBPLine)
    (hok : generate (some hs) config settings = Except.ok p) :
    p = _generateHeader hs config ++ _generateInit config settings ++
        _allOps (_optimizeHoleOrder hs) config ++
        CobotCore.generateSBPFooter ⟨some (jsOr config.safeZ settings.safeZ), none⟩
          settings := by
  rw [generate_some_eq] at hok
  by_cases hlen : hs.length = 0
  · rw [if_pos hlen] at hok
    simp at hok
  · rw [if_neg hlen] at hok
    cases hdep : config.depth with
    | none =>
      rw [hdep] at hok
      simp at hok
    | some t =>
      rw [hdep] at hok
      simpa using hok.symm

lemma mem_ite_list {c : Prop} [Decidable c] {a b : List SBPLine} {l : SBPLine}
    (h : l ∈ (if c then a else b)) : l ∈ a ∨ l ∈ b := by
  by_cases hc : c
  · rw [if_pos hc] at h
    exact Or.inl h
  · rw [if_neg hc] at h
    exact Or.inr h

lemma plunge_no_jzLit (hole : Hole) (config : DrillConfig) :
    ∀ l ∈ _generatePlungeHole hole config, isJzLiteral l = false := by
  intro l hl
  unfold _generatePlungeHole at hl
  rcases List.mem_cons.mp hl with rfl | hl
  · rfl
  rcases List.mem_cons.mp hl with rfl | hl
  · rfl
  rcases List.mem_cons.mp hl with rfl | hl
  · rfl
  · exact absurd hl (List.not_mem_nil _)

lemma pocket_no_jzLit (hole : Hole) (config : DrillConfig) :
    ∀ l ∈ _generatePocketHole hole config, isJzLiteral l = false := by
  intro l hl
  unfold _generatePocketHole at hl
  simp only [List.mem_append] at hl
  rcases hl with (hl | hl) | hl
  · rcases List.mem_cons.mp hl with rfl | hl
    · rfl
    rcases List.mem_cons.mp hl with rfl | hl
    · rfl
    · exact absurd hl (List.not_mem_nil _)
  · rcases List.mem_flatMap.mp hl with ⟨p, _, hlp⟩
    simp only [List.mem_append] at hlp
    rcases hlp with hlp | hlp
    · rcases List.mem_cons.mp hlp with rfl | hlp
      · rfl
      rcases List.mem_cons.mp hlp with rfl | hlp
      · rfl
      · exact absurd hlp (List.not_mem_nil _)
    · rcases mem_ite_list hlp with hlp | hlp
      · rcases List.mem_cons.mp hlp with rfl | hlp
        · rfl
        rcases List.mem_cons.mp hlp with rfl | hlp
        · rfl
        · exact absurd hlp (List.not_mem_nil _)
      · exact absurd hlp (List.not_mem_nil _)
  · rcases List.mem_cons.mp hl with rfl | hl
    · rfl
    rcases List.mem_cons.mp hl with rfl | hl
    · rfl
    · exact absurd hl (List.not_mem_nil _)

lemma counterbore_no_jzLit (hole : Hole) (config : DrillConfig) :
    ∀ l ∈ _generateCounterboreHole hole config, isJzLiteral l = false := by
  intro l hl
  unfold _generateCounterboreHole at hl
  simp only [List.mem_append] at hl
  rcases hl with (hl | hl) | hl
  · rcases List.mem_cons.mp hl with rfl | hl
    · rfl
    · exact absurd hl (List.not_mem_nil _)
  · exact plunge_no_jzLit hole config l hl
  · rcases mem_ite_list hl with hl | hl
    · simp only [List.mem_append] at hl
      rcases hl with hl | hl
      · rcases List.mem_cons.mp hl with rfl | hl
        · rfl
        rcases List.mem_cons.mp hl with rfl | hl
        · rfl
        · exact absurd hl (List.not_mem_nil _)
      · exact pocket_no_jzLit hole _ l hl
    · exact absurd hl (List.not_mem_nil _)

lemma holeOperation_no_jzLit (hole : Hole) (n : ℕ) (config : DrillConfig) :
    ∀ l ∈ _generateHoleOperation hole n config, isJzLiteral l = false := by
  intro l hl
  unfold _generateHoleOperation at hl
  simp only [List.mem_append] at hl
  rcases hl with (hl | hl) | hl
  · rcases List.mem_cons.mp hl with rfl | hl
    · rfl
    · exact absurd hl (List.not_mem_nil _)
  · rcases mem_ite_list hl with hl | hl
    · exact plunge_no_jzLit hole config l hl
    rcases mem_ite_list hl with hl | hl
    · exact pocket_no_jzLit hole config l hl
    rcases mem_ite_list hl with hl | hl
    · exact counterbore_no_jzLit hole config l hl
    · exact plunge_no_jzLit hole config l hl
  · rcases List.mem_cons.mp hl with rfl | hl
    · rfl
    · exact absurd hl (List.not_mem_nil _)

lemma allOps_no_jzLit (sorted : List Hole) (config : DrillConfig) :
    ∀ l ∈ _allOps sorted config, isJzLiteral l = false := by
  intro l hl
  unfold _allOps at hl
  rcases List.mem_flatMap.mp hl with ⟨ih, _, hlp⟩
  exact holeOperation_no_jzLit ih.2 (ih.1 + 1) config l hlp

lemma init_no_jzLit (config : DrillConfig) (settings : Settings) :
    ∀ l ∈ _generateInit config settings, isJzLiteral l = false := by
  intro l hl
  unfold _generateInit at hl
  simp only [List.mem_cons, List.not_mem_nil, or_false] at hl
  rcases hl with rfl | rfl | rfl | rfl | rfl | rfl | rfl | rfl | rfl | rfl | rfl | rfl
    | rfl | rfl | rfl <;> rfl

end DrillToolpath

/-- The fixture program is the successful result of `generate` on one
through-hole: used to discharge the success hypotheses of witnesses. -/
lemma generate_h0_ok :
    DrillToolpath.generate (some [h0]) cfgThrough st0 = Except.ok prog0 := by
  have h1 : DrillToolpath.generate (some [h0]) cfgThrough st0 =
      Except.ok (DrillToolpath._generateHeader [h0] cfgThrough ++
        DrillToolpath._generateInit cfgThrough st0 ++
        DrillToolpath._allOps (DrillToolpath._optimizeHoleOrder [h0]) cfgThrough ++
        CobotCore.generateSBPFooter ⟨some (jsOr cfgThrough.safeZ st0.safeZ), none⟩ st0) := by
    rw [DrillToolpath.generate_some_eq]
    rw [if_neg (by simp)]
    rfl
  rw [h1]
  unfold prog0
  rw [h1]
  rfl

/-- C10: every successful `generate` run on a non-empty holes list ends
with the footer's final four lines in order: the retract to the resolved
safe height, spindle stop `C7`, the rapid return to home `J2,0,0` — emitted
unconditionally, since `generate` never passes the `returnHome` option that
suppresses it — and the `END` marker as the last line. -/
theorem generate_footer_suffix (hs : List Hole) (config : DrillConfig)
    (settings : Settings) (p : List SBPLine) (_hne : hs ≠ [])
    (hok : DrillToolpath.generate (some hs) config settings = Except.ok p) :
    [SBPLine.jz (jsOr config.safeZ settings.safeZ), SBPLine.c7,
     SBPLine.j2 0 0, SBPLine.endMark] <:+ p := by
  have hp := DrillToolpath.generate_ok_eq hs config settings p hok
  rw [hp, DrillToolpath.footer_resolved, jsOr_idem]
  refine List.IsSuffix.trans ?_ (List.suffix_append _ _)
  exact ⟨[SBPLine.blank, SBPLine.comment (r"Cleanup")], rfl⟩

/-- Closed witness for C10 at the fixture program. -/
theorem generate_footer_suffix_witness :
    [SBPLine.jz (jsOr cfgThrough.safeZ st0.safeZ), SBPLine.c7,
     SBPLine.j2 0 0, SBPLine.endMark] <:+ prog0 :=
  generate_footer_suffix [h0] cfgThrough st0 prog0 (by simp) generate_h0_ok

/-- C6 counterexample: in the concrete program generated for one
through-hole (resolved safe height `0.5`), there is a retract to the safe
height written as a literal jog-Z instruction (`JZ,0.500`, emitted by the
footer) rather than the symbolic `%(safeZ)` reference — refuting the claim
that every retract to the safe height uses the symbolic reference. -/
theorem footer_retract_literal :
    jsOr cfgThrough.safeZ st0.safeZ = 1 / 2 ∧
    prog0.any (fun l => DrillToolpath.isSafeRetract (1 / 2) l &&
      DrillToolpath.isJzLiteral l) = true := by
  refine ⟨rfl, ?_⟩
  rw [List.any_eq_true]
  refine ⟨SBPLine.jz (1 / 2), ?_, ?_⟩
  · have hp := DrillToolpath.generate_ok_eq [h0] cfgThrough st0 prog0 generate_h0_ok
    rw [hp, DrillToolpath.footer_resolved]
    have h12 : jsOr (some (jsOr cfgThrough.safeZ st0.safeZ)) st0.safeZ = 1 / 2 := by
      rw [jsOr_idem]
      rfl
    rw [h12]
    simp
  · simp [DrillToolpath.isSafeRetract, DrillToolpath.isJzLiteral]

/-- C6 amended: every program produced by `generate` declares `&safeZ`
with the resolved safe height in its initialization block; every jog-Z
inside the initialization and the per-hole operation blocks is the
symbolic `%(safeZ)` reference (no literal jog-Z occurs there); and the
program also contains the footer's retract, a jog-Z carrying the same
resolved safe-height value but written as a numeric literal rather than
the symbolic reference. -/
theorem safeZ_single_source (hs : List Hole) (config : DrillConfig)
    (settings : Settings) (p : List SBPLine)
    (hok : DrillToolpath.generate (some hs) config settings = Except.ok p) :
    SBPLine.varDecl (r"safeZ") (jsOr config.safeZ settings.safeZ) ∈ p ∧
    (∀ l ∈ DrillToolpath._generateInit config settings,
      DrillToolpath.isJzLiteral l = false) ∧
    (∀ l ∈ DrillToolpath._allOps (DrillToolpath._optimizeHoleOrder hs) config,
      DrillToolpath.isJzLiteral l = false) ∧
    SBPLine.jz (jsOr config.safeZ settings.safeZ) ∈ p := by
  have hp := DrillToolpath.generate_ok_eq hs config settings p hok
  subst hp
  refine ⟨?_, DrillToolpath.init_no_jzLit config settings,
    DrillToolpath.allOps_no_jzLit _ _, ?_⟩
  · refine List.mem_append.mpr (Or.inl (List.mem_append.mpr
      (Or.inl (List.mem_append.mpr (Or.inr ?_)))))
    unfold DrillToolpath._generateInit
    simp [List.mem_cons]
  · rw [DrillToolpath.footer_resolved, jsOr_idem]
    refine List.mem_append.mpr (Or.inr ?_)
    simp [List.mem_cons]

/-- Closed witness for C6 (amended) at the fixture program. -/
theorem safeZ_single_source_witness :
    SBPLine.varDecl (r"safeZ") (jsOr cfgThrough.safeZ st0.safeZ) ∈ prog0 ∧
    (∀ l ∈ DrillToolpath._generateInit cfgThrough st0,
      DrillToolpath.isJzLiteral l = false) ∧
    (∀ l ∈ DrillToolpath._allOps (DrillToolpath._optimizeHoleOrder [h0]) cfgThrough,
      DrillToolpath.isJzLiteral l = false) ∧
    SBPLine.jz (jsOr cfgThrough.safeZ st0.safeZ) ∈ prog0 :=
  safeZ_single_source [h0] cfgThrough st0 prog0 generate_h0_ok

namespace DrillToolpath

lemma optLoop_holes : ∀ (n : ℕ) (s : OptState), (optLoop n s).holes = s.holes := by
  intro n
  induction n with
  | zero => intro s; rfl
  | succ n ih =>
    intro s
    unfold optLoop
    cases hrem : s.remaining with
    | nil => rfl
    | cons h t => exact ih _

lemma optLoop_sorted : ∀ (n : ℕ) (H acc rem : List Hole) (cur : Hole),
    (optLoop n ⟨H, acc, rem, cur⟩).sorted = acc ++ nnLoop n cur rem := by
  intro n
  induction n with
  | zero =>
    intro H acc rem cur
    simp [optLoop, nnLoop]
  | succ n ih =>
    intro H acc rem cur
    cases rem with
    | nil => simp [optLoop, nnLoop]
    | cons h t =>
      show (optLoop n ⟨H, acc ++ [selectBy (distSq cur) h t],
        (h :: t).erase (selectBy (distSq cur) h t), selectBy (distSq cur) h t⟩).sorted = _
      rw [ih]
      exact (List.append_cons acc (selectBy (distSq cur) h t) _).symm

lemma optRun_holes (h : Hole) (t : List Hole) : (optRun h t).holes = h :: t := by
  unfold optRun
  exact optLoop_holes _ _

lemma optRun_sorted (h : Hole) (t : List Hole) :
    (optRun h t).sorted = _optimizeHoleOrder (h :: t) := by
  cases t with
  | nil =>
    have hsel : selectBy origDistSq h ([] : List Hole) = h := rfl
    simp only [optRun, hsel, List.erase_cons_head]
    rfl
  | cons x t' =>
    simp only [optRun]
    rw [optLoop_sorted, optimizeHoleOrder_cons2]
    rfl

end DrillToolpath

/-- C9 counterexample: on a one-hole input the source executes `return
holes`, handing the caller's own array object back (same reference, same
contents) — not a new ordered copy — contrary to the claim that the result
is a new list for every input. -/
theorem optimize_returns_callers_array :
    DrillToolpath._optimizeHoleOrderArr ⟨0, [h0]⟩ 1 = ⟨0, [h0]⟩ := rfl

/-- C9 amended: the engine never mutates caller-owned inputs — the
imperative loop threads the caller's array contents through unchanged
(every mutating statement targets the locals `sorted`/`remaining`, and the
state machine's `sorted` agrees with the functional embedding), and the
source never writes to a hole record field.  The ordered result is a
freshly allocated array exactly for inputs of 2 or more holes; for 0 or 1
holes the caller's own array is returned unchanged. -/
theorem optimize_no_mutation (h : Hole) (t : List Hole) (a : DrillToolpath.JSArray)
    (freshRef : ℕ) (hfresh : freshRef ≠ a.ref) :
    (DrillToolpath.optRun h t).holes = h :: t ∧
    (DrillToolpath.optRun h t).sorted = DrillToolpath._optimizeHoleOrder (h :: t) ∧
    (a.data.length ≤ 1 → DrillToolpath._optimizeHoleOrderArr a freshRef = a) ∧
    (2 ≤ a.data.length →
      (DrillToolpath._optimizeHoleOrderArr a freshRef).ref = freshRef ∧
      (DrillToolpath._optimizeHoleOrderArr a freshRef).ref ≠ a.ref ∧
      (DrillToolpath._optimizeHoleOrderArr a freshRef).data =
        DrillToolpath._optimizeHoleOrder a.data) := by
  refine ⟨DrillToolpath.optRun_holes h t, DrillToolpath.optRun_sorted h t, ?_, ?_⟩
  · intro hle
    unfold DrillToolpath._optimizeHoleOrderArr
    rw [if_pos hle]
  · intro h2
    have hgt : ¬ a.data.length ≤ 1 := by omega
    unfold DrillToolpath._optimizeHoleOrderArr
    rw [if_neg hgt]
    exact ⟨rfl, hfresh, rfl⟩

/-- Closed witness for C9 (amended) on a two-hole input with a fresh
array reference distinct from the caller's. -/
theorem optimize_no_mutation_witness :
    (DrillToolpath.optRun h0 [h1]).holes = [h0, h1] ∧
    (DrillToolpath.optRun h0 [h1]).sorted = DrillToolpath._optimizeHoleOrder [h0, h1] ∧
    ((DrillToolpath.JSArray.mk 0 [h0, h1]).data.length ≤ 1 →
      DrillToolpath._optimizeHoleOrderArr ⟨0, [h0, h1]⟩ 1 = ⟨0, [h0, h1]⟩) ∧
    (2 ≤ (DrillToolpath.JSArray.mk 0 [h0, h1]).data.length →
      (DrillToolpath._optimizeHoleOrderArr ⟨0, [h0, h1]⟩ 1).ref = 1 ∧
      (DrillToolpath._optimizeHoleOrderArr ⟨0, [h0, h1]⟩ 1).ref ≠ 0 ∧
      (DrillToolpath._optimizeHoleOrderArr ⟨0, [h0, h1]⟩ 1).data =
        DrillToolpath._optimizeHoleOrder [h0, h1]) :=
  optimize_no_mutation h0 [h1] ⟨0, [h0, h1]⟩ 1 (by decide)

/-- Closed witness for C4 at the claim's instance: diameter `0.5`, depth
`1.0` give a positive pass count and exactly four equal passes of `0.25`
(no remainder pass of a different depth). -/
theorem pocket_pass_depths_witness :
    cfgPocket.diameter = some (1 / 2) ∧ cfgPocket.depth = some 1 ∧
    (0 : ℚ) < 1 / 2 ∧ (0 : ℚ) < 1 ∧
    (0 < (⌈(1 : ℚ) / min (1 / 2 * (1 / 2)) (1 / 4)⌉ : ℤ)) ∧
    DrillToolpath.m2Depths (DrillToolpath._generatePocketHole h0 cfgPocket) =
      [-(1 / 4), -(1 / 2), -(3 / 4), -1] := by
  have h := pocket_pass_depths h0 cfgPocket (1 / 2) 1 rfl rfl (by norm_num) (by norm_num)
  refine ⟨rfl, rfl, by norm_num, by norm_num, h.1, ?_⟩
  have hc : (⌈(1 : ℚ) / min (1 / 2 * (1 / 2)) (1 / 4)⌉ : ℤ) = 4 := by norm_num
  rw [h.2, hc]
  have h4 : Int.toNat 4 = 4 := rfl
  rw [h4]
  norm_num [List.range_succ, List.map_append]

/-- Closed witness for C5: the iff applied at a well-formed counterbore
configuration, and the claim's rejected configuration contributing the
counterbore-diameter message. -/
theorem validateConfig_spec_witness :
    (DrillToolpath.validateConfig cfgCounterboreFull = [] ↔
      ((∃ d, cfgCounterboreFull.diameter = some d ∧ 0 < d) ∧
       (∃ t, cfgCounterboreFull.depth = some t ∧ 0 < t) ∧
       (cfgCounterboreFull.type = (r"counterbore") →
         (∃ cd d, cfgCounterboreFull.cbDiameter = some cd ∧
            cfgCounterboreFull.diameter = some d ∧ d < cd) ∧
         (∃ ct, cfgCounterboreFull.cbDepth = some ct ∧ 0 < ct)))) ∧
    (r"Counterbore diameter must be larger than hole diameter") ∈
      DrillToolpath.validateConfig cfgCounterboreBad :=
  ⟨validateConfig_spec.1 cfgCounterboreFull,
   validateConfig_spec.2.2.2.1 cfgCounterboreBad (1 / 2) rfl rfl (by
     rintro ⟨cd, hcd, hlt⟩
     have hcd2 : some ((2 : ℚ) / 5) = some cd := hcd
     rw [← Option.some.inj hcd2] at hlt
     norm_num at hlt)⟩
